import Mathlib

/-!
Shallow embedding of the guid-generate program (`src/main.cc`) and proofs of
the specification claims about it.

Conventions of the embedding:
* `seed_type` (= `decltype(std::mt19937::default_seed)`, an unsigned integral
  type of at least 32 bits) is modelled by `Nat` values taken modulo `2 ^ N`,
  where the parameter `N` is the bit width of that type.  Left shifts of the
  type wrap modulo `2 ^ N`; the C `%` operator on `int` is the truncated
  remainder `Int.tmod`.
* The non-deterministic entropy source `std::random_device` is modelled as an
  indexed stream `ent : Nat → Nat` of 32-bit draws together with an explicit
  index of the next unread draw, so that "draws exactly one value" is visible
  in the state.
* `std::mt19937` is not part of the repository sources; it is modelled from
  the spec (§3 Engine: the standardized 32-bit Mersenne Twister MT19937).
-/

/-- Embedding of `arith::rotl` (src/main.cc lines 40-47) at bit width `N`:
`r = s % N` with C truncated `%`; if `r == 0` the value is returned unchanged,
otherwise the word is assembled from a wrapping left shift and a right shift,
with the second shift amount again reduced `% N` exactly as in the source. -/
def rotl (N : Nat) (x : Nat) (s : Int) : Nat :=
  let r : Int := s.tmod (N : Int)
  if r = 0 then x
  else if 0 < r then
    ((x <<< r.toNat) % 2 ^ N) ||| (x >>> (((N : Int) - r).tmod (N : Int)).toNat)
  else
    (x >>> (-r).toNat) ||| ((x <<< (((N : Int) + r).tmod (N : Int)).toNat) % 2 ^ N)

/-- Modelled from the spec: circular left rotation of an `N`-bit word by an
already-normalized amount `k ∈ [0, N)`; a normalized rotation of 0 returns
`x` unchanged. -/
def rotl_norm (N : Nat) (x : Nat) (k : Nat) : Nat :=
  if k = 0 then x else ((x <<< k) % 2 ^ N) ||| (x >>> (N - k))

/-- The list of shift amounts the body of `arith::rotl` (src/main.cc line 46)
actually performs, per branch on `r = s % N`. -/
def rotl_shift_amounts (N : Nat) (s : Int) : List Int :=
  let r : Int := s.tmod (N : Int)
  if r = 0 then []
  else if 0 < r then [r, ((N : Int) - r).tmod (N : Int)]
  else [-r, ((N : Int) + r).tmod (N : Int)]

theorem neg_tmod (a b : Int) : (-a).tmod b = -(a.tmod b) := by
  rw [Int.tmod_def, Int.tmod_def, Int.neg_tdiv]; ring

theorem tmod_emod (s : Int) (N : Nat) :
    s.tmod (N : Int) % (N : Int) = s % (N : Int) := by
  rw [Int.tmod_def, Int.sub_eq_add_neg, ← Int.mul_neg, Int.add_mul_emod_self_left]

theorem tmod_bounds (s : Int) {N : Nat} (hN : 0 < N) :
    -(N : Int) < s.tmod (N : Int) ∧ s.tmod (N : Int) < (N : Int) := by
  have hNpos : (0 : Int) < (N : Int) := by exact_mod_cast hN
  refine ⟨?_, Int.tmod_lt_of_pos s hNpos⟩
  have h1 : (-s).tmod (N : Int) < (N : Int) := Int.tmod_lt_of_pos (-s) hNpos
  rw [neg_tmod] at h1
  omega

theorem rotl_eq_norm (N : Nat) (hN : 0 < N) (x : Nat) (s : Int) :
    rotl N x s = rotl_norm N x ((s % (N : Int)).toNat) := by
  have hNpos : (0 : Int) < (N : Int) := by exact_mod_cast hN
  obtain ⟨hrgt, hrlt⟩ := tmod_bounds s hN
  have hmod : s.tmod (N : Int) % (N : Int) = s % (N : Int) := tmod_emod s N
  rcases lt_trichotomy (s.tmod (N : Int)) 0 with hneg | hzero | hpos
  · have hk : s % (N : Int) = s.tmod (N : Int) + N := by
      have h1 : (s.tmod (N : Int) + (N : Int) * 1) % (N : Int)
          = s.tmod (N : Int) % (N : Int) := Int.add_mul_emod_self_left ..
      rw [← hmod, ← h1, Int.mul_one, Int.emod_eq_of_lt (by omega) (by omega)]
    simp only [rotl, rotl_norm]
    rw [if_neg (by omega), if_neg (by omega), if_neg (by omega)]
    have h2 : (((N : Int) + s.tmod (N : Int)).tmod (N : Int)).toNat
        = (s % (N : Int)).toNat := by
      rw [Int.tmod_eq_of_lt (by omega) (by omega)]; omega
    have h3 : (-(s.tmod (N : Int))).toNat = N - (s % (N : Int)).toNat := by omega
    rw [h2, h3, Nat.lor_comm]
  · have hk : s % (N : Int) = 0 := by rw [← hmod, hzero, Int.zero_emod]
    simp only [rotl, rotl_norm]
    rw [if_pos hzero, if_pos (by omega)]
  · have hk : s % (N : Int) = s.tmod (N : Int) := by
      rw [← hmod, Int.emod_eq_of_lt (by omega) (by omega)]
    simp only [rotl, rotl_norm]
    rw [if_neg (by omega), if_pos hpos, if_neg (by omega)]
    have h2 : (((N : Int) - s.tmod (N : Int)).tmod (N : Int)).toNat
        = N - (s.tmod (N : Int)).toNat := by
      rw [Int.tmod_eq_of_lt (by omega) (by omega)]; omega
    rw [hk, h2]

/-- C4: `rotl` is the circular rotation of the full `N`-bit word by the
normalization of `s` into `[0, N)` (refinement against the spec-side
`rotl_norm`), and satisfies the spec's edge-case identities
`rotl x 0 = x`, `rotl x N = x`, and `rotl x (-s) = rotl x (N - s mod N)`
— the last one both for the C truncated `%` (`Int.tmod`, as in the source)
and for the mathematical nonnegative remainder (`Int.emod`). -/
theorem rotl_rotation_spec (N : Nat) (x : Nat) (s : Int) (hN : 0 < N) :
    rotl N x s = rotl_norm N x ((s % (N : Int)).toNat)
    ∧ rotl N x 0 = x
    ∧ rotl N x (N : Int) = x
    ∧ rotl N x (-s) = rotl N x ((N : Int) - s.tmod (N : Int))
    ∧ rotl N x (-s) = rotl N x ((N : Int) - s % (N : Int)) := by
  refine ⟨rotl_eq_norm N hN x s, ?_, ?_, ?_, ?_⟩
  · simp [rotl]
  · simp [rotl]
  · rw [rotl_eq_norm N hN, rotl_eq_norm N hN]
    congr 2
    calc (-s) % (N : Int)
        = ((N : Int) - s) % (N : Int) := Int.neg_emod
      _ = ((N : Int) % (N : Int) - s % (N : Int)) % (N : Int) := by rw [Int.sub_emod]
      _ = ((N : Int) % (N : Int) - s.tmod (N : Int) % (N : Int)) % (N : Int) := by
            rw [tmod_emod]
      _ = ((N : Int) - s.tmod (N : Int)) % (N : Int) := by rw [← Int.sub_emod]
  · rw [rotl_eq_norm N hN, rotl_eq_norm N hN]
    congr 2
    calc (-s) % (N : Int)
        = ((N : Int) - s) % (N : Int) := Int.neg_emod
      _ = ((N : Int) % (N : Int) - s % (N : Int)) % (N : Int) := by rw [Int.sub_emod]
      _ = ((N : Int) % (N : Int) - s % (N : Int) % (N : Int)) % (N : Int) := by
            rw [Int.emod_emod_of_dvd s dvd_rfl]
      _ = ((N : Int) - s % (N : Int)) % (N : Int) := by rw [← Int.sub_emod]

theorem rotl_rotation_spec_witness :
    0 < 32 ∧
    (rotl 32 3735928559 (-7) = rotl_norm 32 3735928559 (((-7 : Int) % ((32 : Nat) : Int)).toNat)
     ∧ rotl 32 3735928559 0 = 3735928559
     ∧ rotl 32 3735928559 ((32 : Nat) : Int) = 3735928559
     ∧ rotl 32 3735928559 (-(-7)) = rotl 32 3735928559 (((32 : Nat) : Int) - (-7 : Int).tmod ((32 : Nat) : Int))
     ∧ rotl 32 3735928559 (-(-7)) = rotl 32 3735928559 (((32 : Nat) : Int) - (-7 : Int) % ((32 : Nat) : Int))) :=
  ⟨by decide, rotl_rotation_spec 32 3735928559 (-7) (by decide)⟩

/-- C10: for every rotation argument `s` (any sign and magnitude), every shift
amount the body of `arith::rotl` performs is in `[0, N)`: never negative and
never the full word width, so the function is total and well defined. -/
theorem rotl_shift_amounts_in_range (N : Nat) (s : Int) (hN : 0 < N) :
    ∀ a ∈ rotl_shift_amounts N s, 0 ≤ a ∧ a < (N : Int) := by
  obtain ⟨hrgt, hrlt⟩ := tmod_bounds s hN
  intro a ha
  simp only [rotl_shift_amounts] at ha
  split_ifs at ha with h1 h2
  · simp at ha
  · rw [Int.tmod_eq_of_lt (a := (N : Int) - s.tmod (N : Int)) (by omega) (by omega)] at ha
    rcases List.mem_pair.mp ha with rfl | rfl <;> omega
  · rw [Int.tmod_eq_of_lt (a := (N : Int) + s.tmod (N : Int)) (by omega) (by omega)] at ha
    rcases List.mem_pair.mp ha with rfl | rfl <;> omega

theorem rotl_shift_amounts_in_range_witness :
    0 < 32 ∧
    ∀ a ∈ rotl_shift_amounts 32 (-2147483648), 0 ≤ a ∧ a < ((32 : Nat) : Int) :=
  ⟨by decide, rotl_shift_amounts_in_range 32 (-2147483648) (by decide)⟩

/-- The compiled-in accumulation offset `SEED_OFFSET` (src/main.cc line 26). -/
def SEED_OFFSET : Nat := 0x271d8a39

/-- Embedding of the `mkseed` lambda inside `generate_guid` (src/main.cc lines
72-80) at `seed_type` bit width `N`.  `ent` is the entropy source
(`std::random_device`, whose draws are 32-bit values) and `k` the index of its
next unread draw; the result is paired with the updated index, so the number
of entropy draws is explicit.  An empty seed draws one entropy value and
rotates it; a non-empty seed folds its bytes into the accumulator initialized
with `ofs`, a left shift of the `N`-bit accumulator wrapping modulo `2 ^ N`. -/
def mkseed (N : Nat) (ent : Nat → Nat) (k : Nat) (seed : List Nat) (ofs : Nat)
    (rot : Int) : Nat × Nat :=
  if seed.isEmpty then
    (rotl N (ent k % 2 ^ 32) rot, k + 1)
  else
    (seed.foldl (fun acc b => rotl N (acc ^^^ (((acc <<< 8) % 2 ^ N) ||| b)) rot) ofs, k)

/-- Modelled from the spec (§4.1): left-to-right fold over the seed bytes with
accumulator initialized to `offset`; each byte `b` updates the accumulator as
`acc = rotate_left(acc XOR ((acc << 8) OR b), rotation)`. -/
def mkseed_fold_spec (N : Nat) (seed : List Nat) (ofs : Nat) (rot : Int) : Nat :=
  seed.foldl (fun acc b => rotl N (acc ^^^ (((acc <<< 8) % 2 ^ N) ||| b)) rot) ofs

/-- C3: on every non-empty seed, `mkseed` equals the spec's left-to-right fold,
its result is independent of the entropy source (the fold admits exactly one
result per input), and on the concrete input of the spec - offset
`0x271D8A39`, seed bytes of the string `test`, rotation 0, 32-bit
`seed_type` - that single result is `0x530C8D2F`. -/
theorem mkseed_nonempty_is_fold (N : Nat) (ent ent' : Nat → Nat) (k k' : Nat)
    (seed : List Nat) (ofs : Nat) (rot : Int) (h : seed ≠ []) :
    (mkseed N ent k seed ofs rot).1 = mkseed_fold_spec N seed ofs rot
    ∧ (mkseed N ent k seed ofs rot).1 = (mkseed N ent' k' seed ofs rot).1
    ∧ (mkseed 32 ent k [0x74, 0x65, 0x73, 0x74] 0x271d8a39 0).1 = 0x530c8d2f := by
  have hne : seed.isEmpty = false := by
    cases seed
    · exact absurd rfl h
    · rfl
  refine ⟨?_, ?_, ?_⟩
  · simp only [mkseed, mkseed_fold_spec, hne, Bool.false_eq_true, if_false]
  · simp only [mkseed, hne, Bool.false_eq_true, if_false]
  · rfl

theorem mkseed_nonempty_is_fold_witness :
    ([0x74, 0x65, 0x73, 0x74] ≠ ([] : List Nat)) ∧
    ((mkseed 32 (fun _ => 5) 0 [0x74, 0x65, 0x73, 0x74] 0x271d8a39 0).1
        = mkseed_fold_spec 32 [0x74, 0x65, 0x73, 0x74] 0x271d8a39 0
     ∧ (mkseed 32 (fun _ => 5) 0 [0x74, 0x65, 0x73, 0x74] 0x271d8a39 0).1
        = (mkseed 32 (fun _ => 9) 7 [0x74, 0x65, 0x73, 0x74] 0x271d8a39 0).1
     ∧ (mkseed 32 (fun _ => 5) 0 [0x74, 0x65, 0x73, 0x74] 0x271d8a39 0).1 = 0x530c8d2f) :=
  ⟨by decide,
   mkseed_nonempty_is_fold 32 (fun _ => 5) (fun _ => 9) 0 7
     [0x74, 0x65, 0x73, 0x74] 0x271d8a39 0 (by decide)⟩

/-- C7: on the empty seed, `mkseed` draws exactly one entropy value (the
returned index advances from `k` to `k + 1`), returns `rotate_left` of that
drawn value, and never reads the offset; on the single-byte seed `0x00` it
takes the structurally distinct fold branch: no entropy draw (index stays
`k`), result independent of the entropy source and equal to the one-step
fold over the byte `0x00` starting from the offset. -/
theorem mkseed_empty_vs_zero_byte (N : Nat) (ent ent' : Nat → Nat) (k : Nat)
    (ofs ofs' : Nat) (rot : Int) :
    mkseed N ent k [] ofs rot = (rotl N (ent k % 2 ^ 32) rot, k + 1)
    ∧ mkseed N ent k [] ofs rot = mkseed N ent k [] ofs' rot
    ∧ (mkseed N ent k [0] ofs rot).2 = k
    ∧ mkseed N ent k [0] ofs rot = mkseed N ent' k [0] ofs rot
    ∧ (mkseed N ent k [0] ofs rot).1
        = rotl N (ofs ^^^ (((ofs <<< 8) % 2 ^ N) ||| 0)) rot :=
  ⟨rfl, rfl, rfl, rfl, rfl⟩

/-- Modelled from the spec: the internal state of a `std::mt19937` engine (the
standardized 32-bit Mersenne Twister; the `<random>` implementation is not in
src/): the 624-word state array and the index of the next untempered word. -/
structure MTState where
  arr : Array Nat
  idx : Nat

/-- Modelled from the spec: MT19937 state-array initialization from a scalar
seed, per `std::mersenne_twister_engine::seed` (w=32, n=624, f=1812433253);
the seed value is taken modulo `2 ^ 32`. -/
def mtInitArr (s : Nat) : Array Nat :=
  (List.range 623).foldl
    (fun a i =>
      let p := a.getD i 0
      a.push ((1812433253 * (p ^^^ (p >>> 30)) + (i + 1)) % 4294967296))
    #[s % 4294967296]

/-- Modelled from the spec: a freshly seeded MT19937 engine; all 624 cached
words are untempered, the first draw triggers a twist. -/
def mtInit (s : Nat) : MTState := ⟨mtInitArr s, 624⟩

/-- Modelled from the spec: one in-place step of the MT19937 twist
(r=31, m=397, a=0x9908B0DF). -/
def mtTwistAt (a : Array Nat) (i : Nat) : Array Nat :=
  let y := (a.getD i 0 &&& 0x80000000) ||| (a.getD ((i + 1) % 624) 0 &&& 0x7fffffff)
  let v := a.getD ((i + 397) % 624) 0 ^^^ (y >>> 1) ^^^ (if y % 2 = 1 then 0x9908b0df else 0)
  a.setD i v

/-- Modelled from the spec: the full MT19937 twist of the 624-word array. -/
def mtTwist (a : Array Nat) : Array Nat := (List.range 624).foldl mtTwistAt a

/-- Modelled from the spec: MT19937 output tempering
(u=11, d=0xFFFFFFFF, s=7, b=0x9D2C5680, t=15, c=0xEFC60000, l=18). -/
def mtTemper (y : Nat) : Nat :=
  let y1 := y ^^^ ((y >>> 11) &&& 0xffffffff)
  let y2 := y1 ^^^ ((y1 <<< 7) &&& 0x9d2c5680)
  let y3 := y2 ^^^ ((y2 <<< 15) &&& 0xefc60000)
  y3 ^^^ (y3 >>> 18)

/-- Modelled from the spec: drawing one 32-bit value from an MT19937 engine
(`operator()`): twist when the 624 cached words are exhausted, then temper. -/
def mtNext (st : MTState) : Nat × MTState :=
  if 624 ≤ st.idx then
    (mtTemper ((mtTwist st.arr).getD 0 0), ⟨mtTwist st.arr, 1⟩)
  else
    (mtTemper (st.arr.getD st.idx 0), ⟨st.arr, st.idx + 1⟩)

/-- The `k`-th (0-based) 32-bit value of the output stream of an engine. -/
def mtNth (st : MTState) : Nat → Nat
  | 0 => (mtNext st).1
  | k + 1 => mtNth (mtNext st).2 k

/-- The `std::array<std::mt19937, 4>` of engines of `generate_guid`
(src/main.cc line 83). -/
structure Mt4 where
  e0 : MTState
  e1 : MTState
  e2 : MTState
  e3 : MTState

/-- `mt[i]` for the index values `i & 3` produced by the fill loop. -/
def engineAt (es : Mt4) (i : Nat) : MTState :=
  match i with
  | 0 => es.e0
  | 1 => es.e1
  | 2 => es.e2
  | _ => es.e3

/-- Writing back the advanced state of `mt[i]`. -/
def setEngineAt (es : Mt4) (i : Nat) (st : MTState) : Mt4 :=
  match i with
  | 0 => { es with e0 := st }
  | 1 => { es with e1 := st }
  | 2 => { es with e2 := st }
  | _ => { es with e3 := st }

/-- Embedding of the fill loop of `generate_guid` (src/main.cc lines 89-92):
`auto i = 0; for(auto& e : data) e = uint8_t(mt[(++i) & 0x3]());`.
`fuel` counts the remaining bytes (16 at the start), `i` is the loop counter
before its pre-increment; each byte keeps only the low 8 bits of one draw. -/
def fillFrom : Nat → Nat → Mt4 → List Nat
  | 0, _, _ => []
  | fuel + 1, i, es =>
    (mtNext (engineAt es ((i + 1) &&& 0x3))).1 % 256
      :: fillFrom fuel (i + 1) (setEngineAt es ((i + 1) &&& 0x3) (mtNext (engineAt es ((i + 1) &&& 0x3))).2)

/-- Embedding of `generate_guid` (src/main.cc lines 63-93) at `seed_type` bit
width `N`: chain the four scalar seeds (rotations 0, 7, 11, 13, each offset
being the previous engine's first output), then run the fill loop on the four
engines, of which `mt[0]`, `mt[1]`, `mt[2]` have already produced one value. -/
def generate_guid (N : Nat) (ent : Nat → Nat) (seed : List Nat) : List Nat :=
  let r0 := mkseed N ent 0 seed SEED_OFFSET 0
  let d0 := mtNext (mtInit r0.1)
  let r1 := mkseed N ent r0.2 seed d0.1 7
  let d1 := mtNext (mtInit r1.1)
  let r2 := mkseed N ent r1.2 seed d1.1 11
  let d2 := mtNext (mtInit r2.1)
  let r3 := mkseed N ent r2.2 seed d2.1 13
  fillFrom 16 0 ⟨d0.2, d1.2, d2.2, mtInit r3.1⟩

/-- Modelled from the spec (§4.2): the four scalar seeds are derived in strict
sequence with rotations 0, 7, 11, 13, each offset being the first output of
the engine seeded by the previous scalar; the 16 output bytes are the low
8 bits of the engines' output streams in round-robin order 1,2,3,0,..., where
the streams of engines 0, 1, 2 start at position 1 (one value of each was
already consumed deriving the seeds) and the stream of engine 3 at position 0. -/
def generate_guid_spec (N : Nat) (ent : Nat → Nat) (seed : List Nat) : List Nat :=
  let r0 := mkseed N ent 0 seed SEED_OFFSET 0
  let r1 := mkseed N ent r0.2 seed (mtNth (mtInit r0.1) 0) 7
  let r2 := mkseed N ent r1.2 seed (mtNth (mtInit r1.1) 0) 11
  let r3 := mkseed N ent r2.2 seed (mtNth (mtInit r2.1) 0) 13
  (List.range 16).map fun j =>
    (match (j + 1) % 4 with
     | 0 => mtNth (mtInit r0.1) (1 + j / 4)
     | 1 => mtNth (mtInit r1.1) (1 + j / 4)
     | 2 => mtNth (mtInit r2.1) (1 + j / 4)
     | _ => mtNth (mtInit r3.1) (j / 4)) % 256

/-- C1: starting from any four engine states, the fill loop selects engines in
round-robin order starting at index 1 - the 0-based index sequence over the 16
bytes is 1,2,3,0 repeated four times - and the `j`-th byte is the low 8 bits
of exactly one fresh 32-bit draw, namely the `(j / 4)`-th value of the
selected engine's output stream. -/
theorem fill_round_robin (es : Mt4) :
    fillFrom 16 0 es
      = (List.range 16).map (fun j => mtNth (engineAt es ((j + 1) % 4)) (j / 4) % 256)
    ∧ (List.range 16).map (fun j => (j + 1) &&& 0x3)
      = [1, 2, 3, 0, 1, 2, 3, 0, 1, 2, 3, 0, 1, 2, 3, 0] := by
  exact ⟨rfl, by decide⟩

/-- C2: `generate_guid` coincides with the spec-side description: scalar seeds
derived in strict sequence with rotations 0, 7, 11, 13, each offset being the
previous engine's first output, and one 32-bit value of each of engines 0, 1,
2 consumed before the fill loop, shifting those engines' streams by one. -/
theorem generate_guid_seed_chain (N : Nat) (ent : Nat → Nat) (seed : List Nat) :
    generate_guid N ent seed = generate_guid_spec N ent seed := rfl

/-- C5: on any non-empty seed, `generate_guid` never consults the entropy
source: its output is bit-for-bit identical for any two entropy streams, so
two calls with the same seed yield identical GuidBytes. -/
theorem generate_guid_deterministic (N : Nat) (ent ent' : Nat → Nat)
    (seed : List Nat) (h : seed ≠ []) :
    generate_guid N ent seed = generate_guid N ent' seed := by
  cases seed with
  | nil => exact absurd rfl h
  | cons a l => rfl

theorem generate_guid_deterministic_witness :
    ([0x74] ≠ ([] : List Nat)) ∧
    generate_guid 32 (fun _ => 5) [0x74] = generate_guid 32 (fun _ => 9) [0x74] :=
  ⟨by decide, generate_guid_deterministic 32 (fun _ => 5) (fun _ => 9) [0x74] (by decide)⟩

/-- One hexadecimal digit character; letters are uppercase, as printed under
the stream flags `std::uppercase << std::hex`. -/
def hexDigit (n : Nat) : Char :=
  if n < 10 then Char.ofNat (48 + n) else Char.ofNat (55 + n)

/-- Base-16 digit expansion (most significant digit first) of a nonzero value,
with explicit fuel (`fuel ≥ n` suffices); the digit sequence the stream
insertion prints for `n > 0`. -/
def hexDigitsAux : Nat → Nat → List Char
  | 0, _ => []
  | fuel + 1, n => if n = 0 then [] else hexDigitsAux fuel (n / 16) ++ [hexDigit (n % 16)]

/-- The characters `operator<<` prints for the value `n` under `std::hex`
(no width/padding yet): `0` prints as `0`, anything else as its base-16
digits. -/
def hexRender (n : Nat) : List Char :=
  if n = 0 then ['0'] else hexDigitsAux n n

/-- `std::setw(2)` with `std::setfill('0')`: left-pad the printed digits to a
minimum width of 2. -/
def padTo2 (cs : List Char) : List Char :=
  if cs.length < 2 then List.replicate (2 - cs.length) '0' ++ cs else cs

/-- What the stream insertion in `to_string` (src/main.cc line 109) emits for
one byte value `int(e)`. -/
def byteRender (b : Nat) : List Char := padTo2 (hexRender b)

/-- Embedding of `to_string` (src/main.cc lines 103-116): fold over the bytes,
emitting each as `byteRender` and, via `switch(++i)`, a hyphen after the 4th,
6th, 8th and 10th byte; the accumulator carries the emitted characters and
the byte counter `i`. -/
def to_string (data : List Nat) : List Char :=
  (data.foldl
    (fun (acc : List Char × Nat) e =>
      ((if acc.2 + 1 = 4 ∨ acc.2 + 1 = 6 ∨ acc.2 + 1 = 8 ∨ acc.2 + 1 = 10
        then acc.1 ++ byteRender e ++ ['-']
        else acc.1 ++ byteRender e), acc.2 + 1))
    ([], 0)).1

/-- An uppercase hexadecimal digit character (`0`-`9` or `A`-`F`). -/
def isUpperHex (c : Char) : Bool :=
  ('0' ≤ c && c ≤ '9') || ('A' ≤ c && c ≤ 'F')

set_option maxRecDepth 4000 in
theorem byteRender_eq : ∀ b < 256, byteRender b = [hexDigit (b / 16), hexDigit (b % 16)] := by
  decide

theorem hexDigit_isUpperHex : ∀ n < 16, isUpperHex (hexDigit n) = true := by
  decide

theorem byteRender_chars (b : Nat) (hb : b < 256) :
    ∃ c d, byteRender b = [c, d] ∧ isUpperHex c = true ∧ isUpperHex d = true :=
  ⟨hexDigit (b / 16), hexDigit (b % 16), byteRender_eq b hb,
   hexDigit_isUpperHex (b / 16) (by omega), hexDigit_isUpperHex (b % 16) (by omega)⟩

theorem isUpperHex_ne_dash (c : Char) (h : isUpperHex c = true) : ¬ c = '-' := by
  intro hc
  rw [hc] at h
  exact absurd h (by decide)

theorem to_string_shape (b0 b1 b2 b3 b4 b5 b6 b7 b8 b9 b10 b11 b12 b13 b14 b15 : Nat) :
    to_string [b0, b1, b2, b3, b4, b5, b6, b7, b8, b9, b10, b11, b12, b13, b14, b15]
      = byteRender b0 ++ byteRender b1 ++ byteRender b2 ++ byteRender b3 ++ ['-']
        ++ byteRender b4 ++ byteRender b5 ++ ['-']
        ++ byteRender b6 ++ byteRender b7 ++ ['-']
        ++ byteRender b8 ++ byteRender b9 ++ ['-']
        ++ byteRender b10 ++ byteRender b11 ++ byteRender b12 ++ byteRender b13
        ++ byteRender b14 ++ byteRender b15 := by
  simp [to_string]

set_option maxHeartbeats 2000000 in
theorem to_string_props (data : List Nat) (hlen : data.length = 16)
    (hb : ∀ b ∈ data, b < 256) :
    (to_string data).length = 36
    ∧ (∀ i, i < 36 → ((to_string data).getD i ' ' = '-' ↔ (i = 8 ∨ i = 13 ∨ i = 18 ∨ i = 23)))
    ∧ (∀ i, i < 36 → ¬(i = 8 ∨ i = 13 ∨ i = 18 ∨ i = 23) →
        isUpperHex ((to_string data).getD i ' ') = true) := by
  rcases data with _ | ⟨b0, data⟩
  · simp at hlen
  rcases data with _ | ⟨b1, data⟩
  · simp at hlen
  rcases data with _ | ⟨b2, data⟩
  · simp at hlen
  rcases data with _ | ⟨b3, data⟩
  · simp at hlen
  rcases data with _ | ⟨b4, data⟩
  · simp at hlen
  rcases data with _ | ⟨b5, data⟩
  · simp at hlen
  rcases data with _ | ⟨b6, data⟩
  · simp at hlen
  rcases data with _ | ⟨b7, data⟩
  · simp at hlen
  rcases data with _ | ⟨b8, data⟩
  · simp at hlen
  rcases data with _ | ⟨b9, data⟩
  · simp at hlen
  rcases data with _ | ⟨b10, data⟩
  · simp at hlen
  rcases data with _ | ⟨b11, data⟩
  · simp at hlen
  rcases data with _ | ⟨b12, data⟩
  · simp at hlen
  rcases data with _ | ⟨b13, data⟩
  · simp at hlen
  rcases data with _ | ⟨b14, data⟩
  · simp at hlen
  rcases data with _ | ⟨b15, data⟩
  · simp at hlen
  rcases data with _ | ⟨b16, data⟩
  on_goal 2 => simp at hlen
  obtain ⟨c0, d0, he0, hc0, hd0⟩ := byteRender_chars b0 (hb b0 (by simp))
  obtain ⟨c1, d1, he1, hc1, hd1⟩ := byteRender_chars b1 (hb b1 (by simp))
  obtain ⟨c2, d2, he2, hc2, hd2⟩ := byteRender_chars b2 (hb b2 (by simp))
  obtain ⟨c3, d3, he3, hc3, hd3⟩ := byteRender_chars b3 (hb b3 (by simp))
  obtain ⟨c4, d4, he4, hc4, hd4⟩ := byteRender_chars b4 (hb b4 (by simp))
  obtain ⟨c5, d5, he5, hc5, hd5⟩ := byteRender_chars b5 (hb b5 (by simp))
  obtain ⟨c6, d6, he6, hc6, hd6⟩ := byteRender_chars b6 (hb b6 (by simp))
  obtain ⟨c7, d7, he7, hc7, hd7⟩ := byteRender_chars b7 (hb b7 (by simp))
  obtain ⟨c8, d8, he8, hc8, hd8⟩ := byteRender_chars b8 (hb b8 (by simp))
  obtain ⟨c9, d9, he9, hc9, hd9⟩ := byteRender_chars b9 (hb b9 (by simp))
  obtain ⟨c10, d10, he10, hc10, hd10⟩ := byteRender_chars b10 (hb b10 (by simp))
  obtain ⟨c11, d11, he11, hc11, hd11⟩ := byteRender_chars b11 (hb b11 (by simp))
  obtain ⟨c12, d12, he12, hc12, hd12⟩ := byteRender_chars b12 (hb b12 (by simp))
  obtain ⟨c13, d13, he13, hc13, hd13⟩ := byteRender_chars b13 (hb b13 (by simp))
  obtain ⟨c14, d14, he14, hc14, hd14⟩ := byteRender_chars b14 (hb b14 (by simp))
  obtain ⟨c15, d15, he15, hc15, hd15⟩ := byteRender_chars b15 (hb b15 (by simp))
  have hs : to_string [b0, b1, b2, b3, b4, b5, b6, b7, b8, b9, b10, b11, b12, b13, b14, b15]
      = [c0, d0, c1, d1, c2, d2, c3, d3, '-', c4, d4, c5, d5, '-', c6, d6, c7, d7, '-',
         c8, d8, c9, d9, '-', c10, d10, c11, d11, c12, d12, c13, d13, c14, d14, c15, d15] := by
    rw [to_string_shape, he0, he1, he2, he3, he4, he5, he6, he7, he8, he9, he10, he11,
      he12, he13, he14, he15]
    simp
  have hn0 : ¬ c0 = '-' := isUpperHex_ne_dash c0 hc0
  have hn1 : ¬ d0 = '-' := isUpperHex_ne_dash d0 hd0
  have hn2 : ¬ c1 = '-' := isUpperHex_ne_dash c1 hc1
  have hn3 : ¬ d1 = '-' := isUpperHex_ne_dash d1 hd1
  have hn4 : ¬ c2 = '-' := isUpperHex_ne_dash c2 hc2
  have hn5 : ¬ d2 = '-' := isUpperHex_ne_dash d2 hd2
  have hn6 : ¬ c3 = '-' := isUpperHex_ne_dash c3 hc3
  have hn7 : ¬ d3 = '-' := isUpperHex_ne_dash d3 hd3
  have hn8 : ¬ c4 = '-' := isUpperHex_ne_dash c4 hc4
  have hn9 : ¬ d4 = '-' := isUpperHex_ne_dash d4 hd4
  have hn10 : ¬ c5 = '-' := isUpperHex_ne_dash c5 hc5
  have hn11 : ¬ d5 = '-' := isUpperHex_ne_dash d5 hd5
  have hn12 : ¬ c6 = '-' := isUpperHex_ne_dash c6 hc6
  have hn13 : ¬ d6 = '-' := isUpperHex_ne_dash d6 hd6
  have hn14 : ¬ c7 = '-' := isUpperHex_ne_dash c7 hc7
  have hn15 : ¬ d7 = '-' := isUpperHex_ne_dash d7 hd7
  have hn16 : ¬ c8 = '-' := isUpperHex_ne_dash c8 hc8
  have hn17 : ¬ d8 = '-' := isUpperHex_ne_dash d8 hd8
  have hn18 : ¬ c9 = '-' := isUpperHex_ne_dash c9 hc9
  have hn19 : ¬ d9 = '-' := isUpperHex_ne_dash d9 hd9
  have hn20 : ¬ c10 = '-' := isUpperHex_ne_dash c10 hc10
  have hn21 : ¬ d10 = '-' := isUpperHex_ne_dash d10 hd10
  have hn22 : ¬ c11 = '-' := isUpperHex_ne_dash c11 hc11
  have hn23 : ¬ d11 = '-' := isUpperHex_ne_dash d11 hd11
  have hn24 : ¬ c12 = '-' := isUpperHex_ne_dash c12 hc12
  have hn25 : ¬ d12 = '-' := isUpperHex_ne_dash d12 hd12
  have hn26 : ¬ c13 = '-' := isUpperHex_ne_dash c13 hc13
  have hn27 : ¬ d13 = '-' := isUpperHex_ne_dash d13 hd13
  have hn28 : ¬ c14 = '-' := isUpperHex_ne_dash c14 hc14
  have hn29 : ¬ d14 = '-' := isUpperHex_ne_dash d14 hd14
  have hn30 : ¬ c15 = '-' := isUpperHex_ne_dash c15 hc15
  have hn31 : ¬ d15 = '-' := isUpperHex_ne_dash d15 hd15
  refine ⟨?_, ?_, ?_⟩
  · rw [hs]; rfl
  · intro i hi
    rw [hs]
    interval_cases i <;>
      simp [hn0, hn1, hn2, hn3, hn4, hn5, hn6, hn7, hn8, hn9, hn10, hn11, hn12, hn13,
        hn14, hn15, hn16, hn17, hn18, hn19, hn20, hn21, hn22, hn23, hn24, hn25, hn26,
        hn27, hn28, hn29, hn30, hn31]
  · intro i hi hno
    rw [hs]
    interval_cases i <;>
      first
      | exact absurd (by omega) hno
      | simpa using hc0
      | simpa using hd0
      | simpa using hc1
      | simpa using hd1
      | simpa using hc2
      | simpa using hd2
      | simpa using hc3
      | simpa using hd3
      | simpa using hc4
      | simpa using hd4
      | simpa using hc5
      | simpa using hd5
      | simpa using hc6
      | simpa using hd6
      | simpa using hc7
      | simpa using hd7
      | simpa using hc8
      | simpa using hd8
      | simpa using hc9
      | simpa using hd9
      | simpa using hc10
      | simpa using hd10
      | simpa using hc11
      | simpa using hd11
      | simpa using hc12
      | simpa using hd12
      | simpa using hc13
      | simpa using hd13
      | simpa using hc14
      | simpa using hd14
      | simpa using hc15
      | simpa using hd15

/-- C6: for every 16-byte GuidBytes input, `to_string` renders each byte as
two zero-padded uppercase hex digits with a hyphen after the 4th, 6th, 8th
and 10th byte and nowhere else: the output has length 36, a hyphen exactly at
the 0-based indices 8, 13, 18, 23, and an uppercase hex digit at every other
index. -/
theorem to_string_canonical_format (data : List Nat) (hlen : data.length = 16)
    (hb : ∀ b ∈ data, b < 256) :
    (to_string data).length = 36
    ∧ (∀ i, i < 36 → ((to_string data).getD i ' ' = '-' ↔ (i = 8 ∨ i = 13 ∨ i = 18 ∨ i = 23)))
    ∧ (∀ i, i < 36 → ¬(i = 8 ∨ i = 13 ∨ i = 18 ∨ i = 23) →
        isUpperHex ((to_string data).getD i ' ') = true) :=
  to_string_props data hlen hb

theorem to_string_canonical_format_witness :
    ([0, 17, 34, 51, 68, 85, 102, 119, 136, 153, 170, 187, 204, 221, 238, 255] : List Nat).length = 16
    ∧ (∀ b ∈ ([0, 17, 34, 51, 68, 85, 102, 119, 136, 153, 170, 187, 204, 221, 238, 255] : List Nat), b < 256)
    ∧ ((to_string [0, 17, 34, 51, 68, 85, 102, 119, 136, 153, 170, 187, 204, 221, 238, 255]).length = 36
       ∧ (∀ i, i < 36 →
            ((to_string [0, 17, 34, 51, 68, 85, 102, 119, 136, 153, 170, 187, 204, 221, 238, 255]).getD i ' ' = '-'
              ↔ (i = 8 ∨ i = 13 ∨ i = 18 ∨ i = 23)))
       ∧ (∀ i, i < 36 → ¬(i = 8 ∨ i = 13 ∨ i = 18 ∨ i = 23) →
            isUpperHex ((to_string [0, 17, 34, 51, 68, 85, 102, 119, 136, 153, 170, 187, 204, 221, 238, 255]).getD i ' ') = true)) :=
  ⟨by decide, by decide,
   to_string_canonical_format [0, 17, 34, 51, 68, 85, 102, 119, 136, 153, 170, 187, 204, 221, 238, 255]
     (by decide) (by decide)⟩

theorem fillFrom_length (fuel i : Nat) (es : Mt4) : (fillFrom fuel i es).length = fuel := by
  induction fuel generalizing i es with
  | zero => rfl
  | succ n ih => simp [fillFrom, ih]

theorem fillFrom_bytes_lt (fuel i : Nat) (es : Mt4) :
    ∀ b ∈ fillFrom fuel i es, b < 256 := by
  induction fuel generalizing i es with
  | zero => intro b hb; simp [fillFrom] at hb
  | succ n ih =>
    intro b hb
    simp only [fillFrom, List.mem_cons] at hb
    rcases hb with rfl | hb
    · exact Nat.mod_lt _ (by omega)
    · exact ih _ _ b hb

/-- C8: `generate_guid` and `to_string` are total over their input domains:
for every seed byte sequence (including the empty one) and every entropy
stream, `generate_guid` returns a 16-entry byte list with every entry below
256, and `to_string` succeeds on it, producing the 36-character string. -/
theorem generate_and_format_total (N : Nat) (ent : Nat → Nat) (seed : List Nat) :
    (generate_guid N ent seed).length = 16
    ∧ (∀ b ∈ generate_guid N ent seed, b < 256)
    ∧ (to_string (generate_guid N ent seed)).length = 36 := by
  have h1 : (generate_guid N ent seed).length = 16 := fillFrom_length 16 0 _
  have h2 : ∀ b ∈ generate_guid N ent seed, b < 256 := fillFrom_bytes_lt 16 0 _
  exact ⟨h1, h2, (to_string_props _ h1 h2).1⟩

/-- Embedding of the compile-time width check of `generate_guid`
(src/main.cc lines 67-68): `static_assert(sizeof(seed_type) >=
sizeof(uint32_t))`, with `sizeof(uint32_t) = 4` bytes. -/
def static_assert_seed_width (bytes : Nat) : Bool := decide (4 ≤ bytes)

/-- A build of the generator for a `seed_type` of `bytes` bytes (width
`8 * bytes` bits): it compiles - yields the function - exactly when the
`static_assert` holds, and is rejected at compile time otherwise. -/
def build_generator (bytes : Nat) : Option ((Nat → Nat) → List Nat → List Nat) :=
  if static_assert_seed_width bytes then some (generate_guid (8 * bytes)) else none

/-- C9: a `seed_type` width under 32 bits is rejected at build time, not at
runtime: `build_generator` yields no program for widths below 32 bits, and
any successfully built program has `seed_type` width at least 32 bits. -/
theorem seed_width_static_assert :
    (∀ bytes, 8 * bytes < 32 → build_generator bytes = none)
    ∧ (∀ bytes g, build_generator bytes = some g → 32 ≤ 8 * bytes) := by
  constructor
  · intro bytes h
    have : ¬ (4 ≤ bytes) := by omega
    simp [build_generator, static_assert_seed_width, this]
  · intro bytes g hg
    by_cases h : 4 ≤ bytes
    · omega
    · simp [build_generator, static_assert_seed_width, h] at hg

theorem seed_width_static_assert_witness :
    (8 * 2 < 32 ∧ build_generator 2 = none)
    ∧ (build_generator 4 = some (generate_guid 32) ∧ 32 ≤ 8 * 4) :=
  ⟨⟨by decide, seed_width_static_assert.1 2 (by decide)⟩,
   ⟨rfl, seed_width_static_assert.2 4 (generate_guid 32) rfl⟩⟩

theorem fill_round_robin_witness :
    (fillFrom 16 0 ⟨mtInit 1, mtInit 2, mtInit 3, mtInit 4⟩
      = (List.range 16).map
          (fun j => mtNth (engineAt ⟨mtInit 1, mtInit 2, mtInit 3, mtInit 4⟩ ((j + 1) % 4)) (j / 4) % 256))
    ∧ (List.range 16).map (fun j => (j + 1) &&& 0x3)
      = [1, 2, 3, 0, 1, 2, 3, 0, 1, 2, 3, 0, 1, 2, 3, 0] :=
  fill_round_robin ⟨mtInit 1, mtInit 2, mtInit 3, mtInit 4⟩

theorem generate_guid_seed_chain_witness :
    generate_guid 32 (fun _ => 0) [] = generate_guid_spec 32 (fun _ => 0) [] :=
  generate_guid_seed_chain 32 (fun _ => 0) []

theorem mkseed_empty_vs_zero_byte_witness :
    mkseed 32 (fun _ => 3) 0 [] 5 7 = (rotl 32 (3 % 2 ^ 32) 7, 1)
    ∧ mkseed 32 (fun _ => 3) 0 [] 5 7 = mkseed 32 (fun _ => 3) 0 [] 6 7
    ∧ (mkseed 32 (fun _ => 3) 0 [0] 5 7).2 = 0
    ∧ mkseed 32 (fun _ => 3) 0 [0] 5 7 = mkseed 32 (fun _ => 4) 0 [0] 5 7
    ∧ (mkseed 32 (fun _ => 3) 0 [0] 5 7).1 = rotl 32 (5 ^^^ ((5 <<< 8) % 2 ^ 32 ||| 0)) 7 :=
  mkseed_empty_vs_zero_byte 32 (fun _ => 3) (fun _ => 4) 0 5 6 7

theorem generate_and_format_total_witness :
    (generate_guid 32 (fun _ => 0) []).length = 16
    ∧ (∀ b ∈ generate_guid 32 (fun _ => 0) [], b < 256)
    ∧ (to_string (generate_guid 32 (fun _ => 0) [])).length = 36 :=
  generate_and_format_total 32 (fun _ => 0) []
